import Mathlib

/-
  Verification development for the askhostname repository (Rust).

  Shallow embedding of the protocol core: the shared DNS query header
  (src/net/mod.rs), the NBNS NODE STATUS query builder and response parser
  (src/net/nbns.rs), the mDNS reverse-PTR query builder and response parser
  (src/net/mdns.rs), the one-shot UDP query transport (src/net/mod.rs), and
  the IPv4/IPv6 dispatch logic of the orchestrator (src/lib.rs).

  Machine integers are modelled as Nat with explicit wrap where the source
  type wraps (u16 fields of the header). Byte buffers are List Nat whose
  elements are byte values. Fallible Rust code returning Result is modelled
  as Except; a Rust panic (out-of-bounds slice index, checked-arithmetic
  overflow) is modelled as the `none` case of an outer Option, so every
  parser here is a total Lean function whose `none` marks exactly the
  inputs on which the Rust code panics.

  The code runs on the usual little-endian targets, so `u16::to_be` stores
  the two bytes of a field most-significant first; serialisation below
  (be16) produces exactly those wire bytes.
-/

set_option maxRecDepth 40000

deriving instance DecidableEq for Except

namespace Askhostname

/-- Big-endian wire bytes of a 16-bit value, as produced by storing
`x.to_be()` in a `#[repr(C)]` struct on a little-endian machine. -/
def be16 (n : Nat) : List Nat := [n / 256 % 256, n % 256]

/-- DnsHeader from src/net/mod.rs lines 19-27: six 16-bit fields.
Fields hold the logical (host-order) values; `headerBytes` serialises them
big-endian as the repr(C) struct of `to_be` values does on the wire. -/
structure DnsHeader where
  trans_id : Nat
  flags : Nat
  qdcount : Nat
  ancount : Nat
  nscount : Nat
  arcount : Nat
deriving DecidableEq

/-- DnsHeader::new_nbns (src/net/mod.rs lines 31-40). The process-random
`rand::random::<u16>()` is modelled as the parameter `tid`, reduced to the
u16 range. Flags are zero (the source comment says unicast). -/
def DnsHeader.new_nbns (tid : Nat) : DnsHeader :=
  { trans_id := tid % 65536, flags := 0, qdcount := 1, ancount := 0,
    nscount := 0, arcount := 0 }

/-- DnsHeader::new_mdns (src/net/mod.rs lines 41-50): zero transaction id,
zero flags, qdcount 1. -/
def DnsHeader.new_mdns : DnsHeader :=
  { trans_id := 0, flags := 0, qdcount := 1, ancount := 0,
    nscount := 0, arcount := 0 }

/-- Wire bytes of a DnsHeader: each u16 field big-endian, in declaration
order (12 bytes total). -/
def headerBytes (h : DnsHeader) : List Nat :=
  be16 h.trans_id ++ be16 h.flags ++ be16 h.qdcount ++ be16 h.ancount ++
  be16 h.nscount ++ be16 h.arcount

/-- MacAddress (src/net/mod.rs line 53): six raw bytes. -/
structure MacAddress where
  b0 : Nat
  b1 : Nat
  b2 : Nat
  b3 : Nat
  b4 : Nat
  b5 : Nat
deriving DecidableEq

/-- MacAddress::from_bytes (src/net/mod.rs lines 56-60): `None` unless the
slice has exactly 6 bytes. -/
def MacAddress.from_bytes (bytes : List Nat) : Option MacAddress :=
  match bytes with
  | [x0, x1, x2, x3, x4, x5] => some ⟨x0, x1, x2, x3, x4, x5⟩
  | _ => none

/-- AppError (src/lib.rs lines 34-47), all eleven kinds. -/
inductive AppError where
  | ParseAddress
  | ParseAddressesRange
  | SocketCreate
  | SocketConnect
  | SocketSend
  | SocketTimeout
  | InvalidResponseNbns
  | InvalidResponseMdns
  | InvalidResponses
  | ScanError
  | Ipv6
deriving DecidableEq

/-- NbnsAnswer (src/net/nbns.rs lines 92-98). Rust String is modelled as
List Char. -/
inductive NbnsAnswer where
  | Unique : (List Char × Nat) → NbnsAnswer
  | Group : (List Char × Nat) → NbnsAnswer
  | Permanent : (List Char × Nat) → NbnsAnswer
  | PermanentGroup : (List Char × Nat) → NbnsAnswer
  | Mac : MacAddress → NbnsAnswer
deriving DecidableEq

/-- Byte predicate `b.is_ascii_alphanumeric() || b.is_ascii_punctuation()`
used by both parsers to keep printable name bytes. -/
def isPrintableByte (b : Nat) : Bool :=
  (48 ≤ b && b ≤ 57) || (65 ≤ b && b ≤ 90) || (97 ≤ b && b ≤ 122) ||
  (33 ≤ b && b ≤ 47) || (58 ≤ b && b ≤ 64) || (91 ≤ b && b ≤ 96) ||
  (123 ≤ b && b ≤ 126)

/-- Flag classification of one NBNS name record (src/net/nbns.rs lines
75-80): the combined mask 0x82 is tested first, then the permanent bit
0x02, then the group bit 0x80. -/
def classifyFlags (flags : Nat) (name : List Char) (service : Nat) : NbnsAnswer :=
  if flags &&& 0x82 = 0x82 then NbnsAnswer.PermanentGroup (name, service)
  else if flags &&& 0x02 ≠ 0 then NbnsAnswer.Permanent (name, service)
  else if flags &&& 0x80 ≠ 0 then NbnsAnswer.Group (name, service)
  else NbnsAnswer.Unique (name, service)

/-- Fuel-driven most-significant-first decimal digits, ASCII bytes.
Mirrors Rust `u8::to_string` on each octet: no leading zeros, and 0 gives
the single byte 48. The fuel is the number itself, which always suffices
since the argument strictly decreases under division by ten. -/
def natDecimalAux (fuel n : Nat) : List Nat :=
  match fuel with
  | 0 => [48 + n % 10]
  | fuel + 1 =>
    if n < 10 then [48 + n]
    else natDecimalAux fuel (n / 10) ++ [48 + n % 10]

/-- ASCII decimal representation of a Nat, most significant digit first. -/
def natDecimal (n : Nat) : List Nat := natDecimalAux n n

/-- Bytes of a string literal (each char as its code point; all strings
used here are ASCII). -/
def strBytes (s : String) : List Nat := s.data.map Char.toNat

/-- One reverse-name label for an IPv4 octet (src/net/mdns.rs lines 33-36):
the length of the decimal string, then its ASCII digit bytes. For u8
octets the length is at most 3, so the u8 cast of the length is exact. -/
def labelOf (n : Nat) : List Nat := (natDecimal n).length :: natDecimal n

/-- The qname built by MdnsQuery::new (src/net/mdns.rs lines 22-48) for an
IPv4 address a.b.c.d: one label per octet in reverse octet order, then
"in-addr" (length 7), "arpa" (length 4), and a 0 terminator. -/
def mdnsQname (a b c d : Nat) : List Nat :=
  ([a, b, c, d].reverse.map labelOf).flatten ++
  (7 :: strBytes "in-addr") ++ (4 :: strBytes "arpa") ++ [0]

/-- The full mDNS query packet of MdnsQuery::to_packet (src/net/mdns.rs
lines 64-76): header bytes, qname, then qtype 0x000C and qclass 0x0001,
each pushed most-significant byte first (the pushes of the byte-swapped
u16 emit big-endian wire order). -/
def mdnsQueryBytes (a b c d : Nat) : List Nat :=
  headerBytes DnsHeader.new_mdns ++ mdnsQname a b c d ++
  [0x00, 0x0c] ++ [0x00, 0x01]

/-- The constant 34-byte NBNS question of NbnsQuery::new (src/net/nbns.rs
lines 25-29): 0x41 everywhere, then indices 0, 1, 2 and 33 overwritten. -/
def nbnsQuestion : List Nat :=
  ((((List.replicate 34 0x41).set 0 0x20).set 1 0x43).set 2 0x4b).set 33 0

/-- std::mem::size_of::<NbnsQuery>(): 12-byte header + 34-byte question +
2-byte qtype + 2-byte qclass (repr(C), no padding). -/
def nbnsQuerySize : Nat := 12 + 34 + 2 + 2

/-- The full NBNS query packet of NbnsQuery::new / as_slice (src/net/nbns.rs
lines 23-43): header, constant question, qtype 0x0021 and qclass 0x0001
big-endian. -/
def nbnsQueryBytes (tid : Nat) : List Nat :=
  headerBytes (DnsHeader.new_nbns tid) ++ nbnsQuestion ++
  [0x00, 0x21] ++ [0x00, 0x01]

/-- Fuel-driven model of Rust `slice::chunks(k)`: consecutive chunks of k
elements, the last one possibly shorter, none empty. Fuel is the list
length, which suffices for every k ≥ 1. -/
def chunksAux (k : Nat) : Nat → List Nat → List (List Nat)
  | _, [] => []
  | 0, _ => []
  | fuel + 1, l => l.take k :: chunksAux k fuel (l.drop k)

/-- Rust `slice::chunks(k)` as a list of chunks. -/
def chunksOf (k : Nat) (l : List Nat) : List (List Nat) :=
  chunksAux k l.length l

/-- Decoding of one 18-byte NBNS name-record chunk (src/net/nbns.rs lines
66-80): bytes 0-14 filtered to printable characters, byte 15 the service,
byte 16 the flags. -/
def decodeChunk (chunk : List Nat) : NbnsAnswer :=
  classifyFlags (chunk.getD 16 0)
    (((chunk.take 15).filter isPrintableByte).map Char.ofNat)
    (chunk.getD 15 0)

/-- Final step of NbnsQuery::send (src/net/nbns.rs lines 87-88): an empty
answer list is the InvalidResponseNbns error, otherwise success. -/
def finishNbns (names2 : List NbnsAnswer) : Option (Except AppError (List NbnsAnswer)) :=
  if names2.isEmpty then some (Except.error AppError.InvalidResponseNbns)
  else some (Except.ok names2)

/-- Response parsing of NbnsQuery::send (src/net/nbns.rs lines 52-88) on a
received buffer. `none` models a Rust panic: the slice
`response[..data_size]` when the declared data size exceeds the remaining
buffer, the in-loop indices chunk[14], chunk[15], chunk[16] when a taken
chunk is shorter than 17 bytes, and the MAC slice
`response[names_count*18 .. names_count*18+6]` when it leaves the buffer. -/
def nbnsParse (buff : List Nat) : Option (Except AppError (List NbnsAnswer)) :=
  if buff.length ≤ nbnsQuerySize + 32 then
    some (Except.error AppError.InvalidResponseNbns)
  else
    let response := buff.drop (nbnsQuerySize + 4)
    let data_size := response.getD 0 0 * 256 + response.getD 1 0
    let names_count := response.getD 2 0
    let rest := response.drop 3
    if rest.length < data_size then none
    else
      let chunks := (chunksOf 18 (rest.take data_size)).take names_count
      if chunks.any (fun c => decide (c.length < 17)) then none
      else if rest.length < names_count * 18 + 6 then none
      else
        finishNbns ((chunks.map decodeChunk) ++
          (match MacAddress.from_bytes ((rest.drop (names_count * 18)).take 6) with
           | some m => [NbnsAnswer.Mac m]
           | none => []))

/-- One step of the mDNS label decoder (src/net/mdns.rs lines 102-114):
state is (bytes left in the current label, name so far). A zero counter
means the incoming byte is the next label length and a dot separator is
emitted; otherwise the byte is appended when printable. -/
def decodeStep (st : Nat × List Char) (b : Nat) : Nat × List Char :=
  match st.1 with
  | 0 => (b, st.2 ++ ['.'])
  | ws + 1 => (ws, if isPrintableByte b then st.2 ++ [Char.ofNat b] else st.2)

/-- The mDNS name decoder: fold decodeStep over the byte stream starting
from an initial label size. -/
def decodeName (ws : Nat) (bytes : List Nat) : List Char :=
  (List.foldl decodeStep (ws, []) bytes).2

/-- Response parsing of MdnsQuery::send (src/net/mdns.rs lines 84-116).
`none` models the u16 underflow panic of `answer_size - 2` (checked
arithmetic) when the declared answer size is below 2. -/
def mdnsParse (reqLen : Nat) (buff : List Nat) : Option (Except AppError (Option (List Char))) :=
  if buff.length ≤ reqLen + 18 then
    some (Except.error AppError.InvalidResponseMdns)
  else
    let response := buff.drop (reqLen + 10)
    let answer_size := response.getD 0 0 * 256 + response.getD 1 0
    let word_size := response.getD 2 0
    if answer_size < 2 then none
    else some (Except.ok (some
      (decodeName word_size ((response.drop 3).take (answer_size - 2)))))

/-- Applying the label decoder to a constructed qname exactly as the
receive path does when the answer rdata is that qname: the first byte
seeds the label counter (response[2]), and `take (answer_size - 2)`
processes the remaining bytes minus the 0 terminator. -/
def decodeQName (q : List Nat) : List Char :=
  match q with
  | [] => []
  | first :: rest => decodeName first rest.dropLast

/-- Outcome of each socket step of fn query (src/net/mod.rs lines 178-197).
`recvData = none` models any failed `recv` (timeout, unreachable remote,
or other receive error). -/
structure SocketOps where
  bindOk : Bool
  connectOk : Bool
  writeTimeoutOk : Bool
  readTimeoutOk : Bool
  sendOk : Bool
  recvData : Option (List Nat)

/-- fn query (src/net/mod.rs lines 178-197): each failing step maps to its
error; a failed receive is folded into `Ok(None)`; a successful receive
yields the full 256-byte buffer (received bytes, zero-filled tail). -/
def query (ops : SocketOps) (_request : List Nat) : Except AppError (Option (List Nat)) :=
  if !ops.bindOk then Except.error AppError.SocketCreate
  else if !ops.connectOk then Except.error AppError.SocketConnect
  else if !ops.writeTimeoutOk then Except.error AppError.SocketTimeout
  else if !ops.readTimeoutOk then Except.error AppError.SocketTimeout
  else if !ops.sendOk then Except.error AppError.SocketSend
  else
    match ops.recvData with
    | none => Except.ok none
    | some r => Except.ok (some (r.take 256 ++ List.replicate (256 - r.length) 0))

/-- NbnsQuery::send (src/net/nbns.rs lines 45-89): transport then parse.
The outer Option again marks a parser panic. -/
def nbnsSend (ops : SocketOps) (tid : Nat) : Option (Except AppError (Option (List NbnsAnswer))) :=
  match query ops (nbnsQueryBytes tid) with
  | Except.error e => some (Except.error e)
  | Except.ok none => some (Except.ok none)
  | Except.ok (some buff) =>
    match nbnsParse buff with
    | none => none
    | some (Except.error e) => some (Except.error e)
    | some (Except.ok names) => some (Except.ok (some names))

/-- MdnsQuery::send (src/net/mdns.rs lines 78-117): transport then parse. -/
def mdnsSend (ops : SocketOps) (a b c d : Nat) : Option (Except AppError (Option (List Char))) :=
  match query ops (mdnsQueryBytes a b c d) with
  | Except.error e => some (Except.error e)
  | Except.ok none => some (Except.ok none)
  | Except.ok (some buff) => mdnsParse (mdnsQueryBytes a b c d).length buff

/-- IP addresses: IPv4 with four octets, IPv6 abstracted to a tag. -/
inductive IpAddr where
  | v4 : Nat → Nat → Nat → Nat → IpAddr
  | v6 : Nat → IpAddr
deriving DecidableEq

/-- IpAddr::is_ipv6. -/
def IpAddr.is_ipv6 : IpAddr → Bool
  | IpAddr.v6 _ => true
  | _ => false

/-- IpAddr::is_ipv4. -/
def IpAddr.is_ipv4 : IpAddr → Bool
  | IpAddr.v4 _ _ _ _ => true
  | _ => false

/-- A CIDR block as parsed by ipnet::IpNet: base address and mask length. -/
structure IpNet where
  addr : IpAddr
  maskLen : Nat

/-- Error flow of App::query_and_out (src/lib.rs lines 134-182), with the
two sub-query outcomes passed in: IPv6 targets are rejected first with
AppError::Ipv6; then sub-query errors are collected (the NBNS query runs
only for IPv4), a single error is returned as is, several collapse into
InvalidResponses. -/
def queryAndOut (addr : IpAddr)
    (nbnsRes : Except AppError (Option (List NbnsAnswer)))
    (mdnsRes : Except AppError (Option (List Char))) : Except AppError Unit :=
  if addr.is_ipv6 then Except.error AppError.Ipv6
  else
    let errs :=
      (if addr.is_ipv4 then
        (match nbnsRes with
         | Except.error e => [e]
         | _ => [])
       else []) ++
      (match mdnsRes with
       | Except.error e => [e]
       | _ => [])
    match errs with
    | [] => Except.ok ()
    | [e] => Except.error e
    | _ => Except.error AppError.InvalidResponses

/-- Error flow of App::ask_multiple (src/lib.rs lines 192-223), with the
per-host error list passed in: an IPv6 range is rejected immediately with
AppError::ScanError; otherwise a non-empty accumulated error list also
yields ScanError after the scan. -/
def askMultiple (range : IpNet) (perHostErrors : List (IpAddr × AppError)) : Except AppError Unit :=
  if range.addr.is_ipv6 then Except.error AppError.ScanError
  else if perHostErrors.isEmpty then Except.ok ()
  else Except.error AppError.ScanError

/-- The 256-byte buffer reaching the NBNS parser when the wire carries an
answer that declares name count 2 but whose data region (declared size 18)
holds a single valid 18-byte name record; the remaining bytes are the
zero fill of the fixed receive buffer. -/
def c3buff : List Nat :=
  List.replicate 54 0 ++ [0, 18, 2] ++
  ([65, 66, 67] ++ List.replicate 12 32 ++ [0, 0, 0]) ++ List.replicate 181 0

/- ------------------------------------------------------------------ -/
/- Helper lemmas                                                      -/
/- ------------------------------------------------------------------ -/

theorem headerBytes_length (h : DnsHeader) : (headerBytes h).length = 12 := by
  simp [headerBytes, be16]

theorem natDecimalAux_digit (fuel : Nat) :
    ∀ n x, x ∈ natDecimalAux fuel n → 48 ≤ x ∧ x ≤ 57 := by
  induction fuel with
  | zero =>
    intro n x hx
    simp [natDecimalAux] at hx
    omega
  | succ fuel ih =>
    intro n x hx
    simp only [natDecimalAux] at hx
    split at hx
    · simp at hx
      omega
    · rcases List.mem_append.mp hx with h | h
      · exact ih _ _ h
      · simp at h
        omega

theorem natDecimal_digit (n x : Nat) (hx : x ∈ natDecimal n) : 48 ≤ x ∧ x ≤ 57 :=
  natDecimalAux_digit n n x hx

theorem natDecimal_printable (n : Nat) :
    ∀ x ∈ natDecimal n, isPrintableByte x = true := by
  intro x hx
  have h := natDecimal_digit n x hx
  simp only [isPrintableByte, Bool.or_eq_true, Bool.and_eq_true, decide_eq_true_eq]
  omega

theorem finishNbns_ok (X names : List NbnsAnswer)
    (h : finishNbns X = some (Except.ok names)) : names ≠ [] := by
  rw [finishNbns] at h
  split at h
  · simp at h
  · next hne =>
    simp only [Option.some.injEq, Except.ok.injEq] at h
    subst h
    simpa using hne

/-- The encoded stream of a list of length-prefixed labels, as both the
query builder and a response answer lay them out (terminator excluded). -/
def encWords (ws : List (List Nat)) : List Nat :=
  (ws.map fun w => w.length :: w).flatten

theorem foldl_decode_word (w rest : List Nat) (acc : List Char)
    (hw : ∀ b ∈ w, isPrintableByte b = true) :
    List.foldl decodeStep (w.length, acc) (w ++ rest) =
    List.foldl decodeStep (0, acc ++ w.map Char.ofNat) rest := by
  induction w generalizing acc with
  | nil => simp
  | cons b w ih =>
    have hb : isPrintableByte b = true := hw b (List.mem_cons_self _ _)
    have hw2 : ∀ x ∈ w, isPrintableByte x = true :=
      fun x hx => hw x (List.mem_cons_of_mem _ hx)
    have hstep : decodeStep (w.length + 1, acc) b = (w.length, acc ++ [Char.ofNat b]) := by
      simp [decodeStep, hb]
    calc List.foldl decodeStep ((b :: w).length, acc) ((b :: w) ++ rest)
        = List.foldl decodeStep (w.length, acc ++ [Char.ofNat b]) (w ++ rest) := by
          simp only [List.length_cons, List.cons_append, List.foldl_cons, hstep]
      _ = List.foldl decodeStep (0, (acc ++ [Char.ofNat b]) ++ w.map Char.ofNat) rest :=
          ih _ hw2
      _ = List.foldl decodeStep (0, acc ++ (b :: w).map Char.ofNat) rest := by
          simp

theorem foldl_decode_sep (l : Nat) (rest : List Nat) (acc : List Char) :
    List.foldl decodeStep (0, acc) (l :: rest) =
    List.foldl decodeStep (l, acc ++ ['.']) rest := by
  simp [decodeStep]

theorem decode_encWords (ws : List (List Nat)) (acc : List Char)
    (h : ∀ w ∈ ws, ∀ x ∈ w, isPrintableByte x = true) :
    (List.foldl decodeStep (0, acc) (encWords ws)).2 =
      acc ++ (ws.map fun w => '.' :: w.map Char.ofNat).flatten := by
  induction ws generalizing acc with
  | nil => simp [encWords]
  | cons w ws ih =>
    have hw : ∀ x ∈ w, isPrintableByte x = true := h w (List.mem_cons_self _ _)
    have hws : ∀ v ∈ ws, ∀ x ∈ v, isPrintableByte x = true :=
      fun v hv => h v (List.mem_cons_of_mem _ hv)
    have henc : encWords (w :: ws) = w.length :: (w ++ encWords ws) := by
      simp [encWords]
    rw [henc, foldl_decode_sep, foldl_decode_word w _ _ hw, ih _ hws]
    simp

theorem decode_top (w : List Nat) (ws : List (List Nat))
    (hw : ∀ x ∈ w, isPrintableByte x = true)
    (hws : ∀ v ∈ ws, ∀ x ∈ v, isPrintableByte x = true) :
    decodeName w.length (w ++ encWords ws) =
      w.map Char.ofNat ++ (ws.map fun v => '.' :: v.map Char.ofNat).flatten := by
  rw [decodeName, foldl_decode_word w _ [] hw]
  rw [decode_encWords ws _ hws]
  simp

/- ------------------------------------------------------------------ -/
/- Claim theorems                                                     -/
/- ------------------------------------------------------------------ -/

/-- C1 (counterexample): the claim says the built NBNS header carries a
flags word with the single request-node-status bit set, but
DnsHeader::new_nbns stores zero flags: at transaction id 0 the flags field
is 0 and the wire flags bytes (offsets 2-3) are both zero, so no flag bit
is set. -/
theorem C1_nbns_flags_counterexample :
    (DnsHeader.new_nbns 0).flags = 0 ∧
    headerBytes (DnsHeader.new_nbns 0) = [0, 0, 0, 0, 0, 1, 0, 0, 0, 0, 0, 0] := by
  constructor
  · rfl
  · decide

/-- C1 (amended): every built NBNS query header has a process-random
16-bit transaction id (modelled as the parameter, reduced to u16) and
ZERO flags; every built mDNS query header has transaction id 0 and flags
0; both carry qdcount 1 and zero an/ns/ar counts, all serialised
big-endian on the wire. -/
theorem C1_header_fields (tid : Nat) :
    (DnsHeader.new_nbns tid).trans_id = tid % 65536 ∧
    (DnsHeader.new_nbns tid).flags = 0 ∧
    (DnsHeader.new_nbns tid).qdcount = 1 ∧
    (DnsHeader.new_nbns tid).ancount = 0 ∧
    (DnsHeader.new_nbns tid).nscount = 0 ∧
    (DnsHeader.new_nbns tid).arcount = 0 ∧
    headerBytes (DnsHeader.new_nbns tid) =
      be16 (tid % 65536) ++ [0, 0, 0, 1, 0, 0, 0, 0, 0, 0] ∧
    headerBytes DnsHeader.new_mdns = [0, 0, 0, 0, 0, 1, 0, 0, 0, 0, 0, 0] := by
  refine ⟨rfl, rfl, rfl, rfl, rfl, rfl, ?_, by decide⟩
  simp [headerBytes, be16, DnsHeader.new_nbns]

/-- C2 (counterexample): the claim says the NBNS parse errs whenever zero
name records were decoded, but on the all-zero 256-byte receive buffer the
declared name count is 0, no name record is decoded, and the parse still
succeeds with only the MAC entry. -/
theorem C2_mac_only_counterexample :
    nbnsParse (List.replicate 256 0) =
      some (Except.ok [NbnsAnswer.Mac ⟨0, 0, 0, 0, 0, 0⟩]) := by decide

/-- C2 (amended): the NBNS parse never returns a successful empty answer
list; but when zero name records are decoded and the MAC slice is
readable, it returns success with only the MAC entry rather than
InvalidResponseNbns. -/
theorem C2_ok_nonempty (buff : List Nat) (names : List NbnsAnswer)
    (h : nbnsParse buff = some (Except.ok names)) : names ≠ [] := by
  simp only [nbnsParse] at h
  split at h
  · simp at h
  · split at h
    · simp at h
    · split at h
      · simp at h
      · split at h
        · simp at h
        · exact finishNbns_ok _ _ h

theorem C2_ok_nonempty_witness :
    nbnsParse (List.replicate 256 0) =
      some (Except.ok [NbnsAnswer.Mac ⟨0, 0, 0, 0, 0, 0⟩]) ∧
    ([NbnsAnswer.Mac ⟨0, 0, 0, 0, 0, 0⟩] : List NbnsAnswer) ≠ [] :=
  ⟨by decide,
   C2_ok_nonempty (List.replicate 256 0) [NbnsAnswer.Mac ⟨0, 0, 0, 0, 0, 0⟩] (by decide)⟩

/-- C3 (counterexample): the claim says a response declaring name count 2
whose buffer holds only one valid 18-byte record must fail with
InvalidResponseNbns and must not return the single decoded name; on the
256-byte receive buffer c3buff (declared data size 18, declared count 2,
one record) the parse instead succeeds and returns that single name plus
the MAC entry. -/
theorem C3_partial_accept_counterexample :
    nbnsParse c3buff =
      some (Except.ok [NbnsAnswer.Unique (['A', 'B', 'C'], 0),
        NbnsAnswer.Mac ⟨0, 0, 0, 0, 0, 0⟩]) := by decide

/-- C3 (amended): a response buffer failing the minimum-length check
(length at most query size + 32 = 82) is rejected with InvalidResponseNbns,
but a full 256-byte receive buffer declaring name count 2 with only one
18-byte record in its declared data region is accepted, returning the
single decoded name plus the MAC entry. -/
theorem C3_minsize_reject_partial_accept :
    (∀ buff : List Nat, buff.length ≤ 82 →
      nbnsParse buff = some (Except.error AppError.InvalidResponseNbns)) ∧
    nbnsParse c3buff =
      some (Except.ok [NbnsAnswer.Unique (['A', 'B', 'C'], 0),
        NbnsAnswer.Mac ⟨0, 0, 0, 0, 0, 0⟩]) := by
  constructor
  · intro buff hb
    have hc : buff.length ≤ nbnsQuerySize + 32 := by
      simp only [nbnsQuerySize]
      omega
    simp [nbnsParse, hc]
  · decide

theorem C3_minsize_reject_partial_accept_witness :
    nbnsParse (List.replicate 80 0) =
      some (Except.error AppError.InvalidResponseNbns) :=
  C3_minsize_reject_partial_accept.1 (List.replicate 80 0) (by decide)

/-- C4 (counterexample): the claim says the range path rejects an IPv6
CIDR with the same Ipv6Unsupported error kind as the single-host path; in
the code the single-host path returns AppError::Ipv6 but ask_multiple
returns AppError::ScanError, a different kind. -/
theorem C4_error_kind_counterexample :
    queryAndOut (IpAddr.v6 0) (Except.ok none) (Except.ok none) =
      Except.error AppError.Ipv6 ∧
    askMultiple ⟨IpAddr.v6 0, 64⟩ [] = Except.error AppError.ScanError ∧
    AppError.Ipv6 ≠ AppError.ScanError := by
  refine ⟨by decide, by decide, by decide⟩

/-- C4 (amended): for every IPv6 input the single-host path rejects the
address immediately with the Ipv6 (Ipv6Unsupported) error, and the range
path rejects an IPv6 CIDR block immediately as well, but with the
ScanError kind instead. -/
theorem C4_ipv6_rejection (addr : IpAddr)
    (nbnsRes : Except AppError (Option (List NbnsAnswer)))
    (mdnsRes : Except AppError (Option (List Char)))
    (h : addr.is_ipv6 = true)
    (range : IpNet) (errs : List (IpAddr × AppError))
    (h2 : range.addr.is_ipv6 = true) :
    queryAndOut addr nbnsRes mdnsRes = Except.error AppError.Ipv6 ∧
    askMultiple range errs = Except.error AppError.ScanError := by
  constructor
  · simp [queryAndOut, h]
  · simp [askMultiple, h2]

theorem C4_ipv6_rejection_witness :
    queryAndOut (IpAddr.v6 1) (Except.ok none) (Except.ok none) =
      Except.error AppError.Ipv6 ∧
    askMultiple ⟨IpAddr.v6 1, 64⟩ [] = Except.error AppError.ScanError :=
  C4_ipv6_rejection (IpAddr.v6 1) (Except.ok none) (Except.ok none) rfl
    ⟨IpAddr.v6 1, 64⟩ [] rfl

/-- C5 (code bug): the parsers are NOT total past their minimum-length
checks. On a 256-byte receive buffer declaring NBNS data size 200 only
199 bytes remain, so the slice to the declared size panics; declaring
name count 12 with data size 0 makes the MAC slice at 12*18 panic; and an
mDNS answer size of 0 makes the u16 subtraction answer_size - 2
underflow. Each `none` below marks exactly such a panic. -/
theorem C5_parser_panics :
    nbnsParse (List.replicate 54 0 ++ [0, 200] ++ List.replicate 200 0) = none ∧
    nbnsParse (List.replicate 54 0 ++ [0, 0, 12] ++ List.replicate 199 0) = none ∧
    mdnsParse 40 (List.replicate 256 0) = none := by
  refine ⟨by decide, by decide, by decide⟩

theorem mdnsQname_eq (a b c d : Nat) :
    mdnsQname a b c d =
      labelOf d ++ (labelOf c ++ (labelOf b ++ (labelOf a ++
        ((7 :: strBytes "in-addr") ++ ((4 :: strBytes "arpa") ++ [0]))))) := by
  simp [mdnsQname, List.append_assoc]

/-- C6: the built mDNS query is exactly the 12-byte header, one label per
octet in reverse octet order (each a length byte followed by the ASCII
decimal digit bytes of the octet, proved to be digit bytes), the labels
in-addr (length 7) and arpa (length 4), a 0 terminator, then big-endian
type 0x000C and class 0x0001; its total length is header size plus the
sum of each octet decimal length + 1, plus 1+7+1+4+1+4; and for 127.0.0.1
the name labels are exactly 1 "1", 1 "0", 1 "0", 3 "127", 7 "in-addr",
4 "arpa", 0. -/
theorem C6_mdns_query_layout (a b c d : Nat)
    (_ha : a < 256) (_hb : b < 256) (_hc : c < 256) (_hd : d < 256) :
    mdnsQueryBytes a b c d =
      [0, 0, 0, 0, 0, 1, 0, 0, 0, 0, 0, 0] ++
      (labelOf d ++ labelOf c ++ labelOf b ++ labelOf a ++
       (7 :: strBytes "in-addr") ++ (4 :: strBytes "arpa") ++ [0]) ++
      [0x00, 0x0c] ++ [0x00, 0x01] ∧
    (mdnsQueryBytes a b c d).length =
      12 + (((natDecimal a).length + 1) + ((natDecimal b).length + 1) +
            ((natDecimal c).length + 1) + ((natDecimal d).length + 1)) +
      1 + 7 + 1 + 4 + 1 + 4 ∧
    (∀ o ∈ [a, b, c, d], ∀ x ∈ natDecimal o, 48 ≤ x ∧ x ≤ 57) ∧
    mdnsQname 127 0 0 1 =
      [1, 49, 1, 48, 1, 48, 3, 49, 50, 55,
       7, 105, 110, 45, 97, 100, 100, 114, 4, 97, 114, 112, 97, 0] := by
  refine ⟨?_, ?_, ?_, by decide⟩
  · simp [mdnsQueryBytes, mdnsQname_eq, headerBytes, be16, DnsHeader.new_mdns,
      List.append_assoc]
  · have e7 : (strBytes "in-addr").length = 7 := by decide
    have e4 : (strBytes "arpa").length = 4 := by decide
    simp [mdnsQueryBytes, mdnsQname_eq, labelOf, headerBytes, be16,
      DnsHeader.new_mdns, e7, e4]
    omega
  · intro o _ x hx
    exact natDecimal_digit o x hx

theorem C6_mdns_query_layout_witness :
    (mdnsQueryBytes 127 0 0 1).length =
      12 + (((natDecimal 127).length + 1) + ((natDecimal 0).length + 1) +
            ((natDecimal 0).length + 1) + ((natDecimal 1).length + 1)) +
      1 + 7 + 1 + 4 + 1 + 4 :=
  (C6_mdns_query_layout 127 0 0 1 (by decide) (by decide) (by decide) (by decide)).2.1

/-- C7: the mDNS reverse-name encoding is a function of the four octets
(hence deterministic), and feeding the constructed label sequence to the
length-prefixed label decoder of the receive path reproduces the dotted
name made of the octets in reverse order followed by in-addr.arpa. -/
theorem C7_reverse_name_roundtrip (a b c d : Nat)
    (_ha : a < 256) (_hb : b < 256) (_hc : c < 256) (_hd : d < 256) :
    decodeQName (mdnsQname a b c d) =
      (natDecimal d).map Char.ofNat ++ '.' :: (natDecimal c).map Char.ofNat ++
      '.' :: (natDecimal b).map Char.ofNat ++ '.' :: (natDecimal a).map Char.ofNat ++
      '.' :: "in-addr".data ++ '.' :: "arpa".data := by
  have e7 : (strBytes "in-addr").length = 7 := by decide
  have e4 : (strBytes "arpa").length = 4 := by decide
  have hq : mdnsQname a b c d =
      (natDecimal d).length ::
        ((natDecimal d ++ encWords [natDecimal c, natDecimal b, natDecimal a,
          strBytes "in-addr", strBytes "arpa"]) ++ [0]) := by
    simp [mdnsQname, encWords, labelOf, e7, e4, List.append_assoc]
  have hws : ∀ v ∈ [natDecimal c, natDecimal b, natDecimal a,
      strBytes "in-addr", strBytes "arpa"], ∀ x ∈ v, isPrintableByte x = true := by
    have hin : ∀ x ∈ strBytes "in-addr", isPrintableByte x = true := by decide
    have har : ∀ x ∈ strBytes "arpa", isPrintableByte x = true := by decide
    intro v hv
    simp only [List.mem_cons, List.not_mem_nil, or_false] at hv
    rcases hv with rfl | rfl | rfl | rfl | rfl
    · exact natDecimal_printable c
    · exact natDecimal_printable b
    · exact natDecimal_printable a
    · exact hin
    · exact har
  have ein : (strBytes "in-addr").map Char.ofNat = "in-addr".data := by decide
  have ear : (strBytes "arpa").map Char.ofNat = "arpa".data := by decide
  rw [hq]
  simp only [decodeQName, List.dropLast_concat]
  rw [decode_top (natDecimal d) _ (natDecimal_printable d) hws]
  simp [ein, ear, List.append_assoc]

theorem C7_reverse_name_roundtrip_witness :
    decodeQName (mdnsQname 127 0 0 1) = "1.0.0.127.in-addr.arpa".data := by
  have h := C7_reverse_name_roundtrip 127 0 0 1 (by decide) (by decide)
    (by decide) (by decide)
  rw [h]
  decide

/-- C8: a name-record flag byte with both the group bit (0x80) and the
permanent bit (0x02) set always classifies as PermanentGroup, never as
Group or Permanent alone; the combined mask 0x82 is tested before the
single-bit tests. -/
theorem C8_permanent_group_priority (f : Nat) (hf : f < 256)
    (hg : f.testBit 7 = true) (hp : f.testBit 1 = true)
    (name : List Char) (service : Nat) :
    classifyFlags f name service = NbnsAnswer.PermanentGroup (name, service) := by
  have hand : ∀ g, g < 256 → g.testBit 7 = true → g.testBit 1 = true →
      g &&& 0x82 = 0x82 := by decide
  have h := hand f hf hg hp
  simp [classifyFlags, h]

theorem C8_permanent_group_priority_witness :
    classifyFlags 0x82 [] 0 = NbnsAnswer.PermanentGroup ([], 0) :=
  C8_permanent_group_priority 0x82 (by decide) (by decide) (by decide) [] 0

/-- C9: whenever every socket step up to the receive succeeds and the
receive itself fails (timeout, unreachable remote, or any other receive
failure), both the NBNS and the mDNS send paths return Ok(None) rather
than an error. -/
theorem C9_recv_failure_ok_none (ops : SocketOps) (tid a b c d : Nat)
    (h1 : ops.bindOk = true) (h2 : ops.connectOk = true)
    (h3 : ops.writeTimeoutOk = true) (h4 : ops.readTimeoutOk = true)
    (h5 : ops.sendOk = true) (h6 : ops.recvData = none) :
    nbnsSend ops tid = some (Except.ok none) ∧
    mdnsSend ops a b c d = some (Except.ok none) := by
  have hq : ∀ req, query ops req = Except.ok none := by
    intro req
    simp [query, h1, h2, h3, h4, h5, h6]
  constructor
  · simp [nbnsSend, hq]
  · simp [mdnsSend, hq]

theorem C9_recv_failure_ok_none_witness :
    nbnsSend ⟨true, true, true, true, true, none⟩ 0 = some (Except.ok none) ∧
    mdnsSend ⟨true, true, true, true, true, none⟩ 127 0 0 1 = some (Except.ok none) :=
  C9_recv_failure_ok_none ⟨true, true, true, true, true, none⟩ 0 127 0 0 1
    rfl rfl rfl rfl rfl rfl

/-- C10: building an NBNS query always yields exactly 50 bytes (12-byte
header + 34-byte question + 2-byte type + 2-byte class), and everything
after the header is the constant wildcard question (independent of the
transaction id, and the builder takes no target at all) followed by type
0x0021 and class 0x0001 big-endian. -/
theorem C10_nbns_query_fixed (tid : Nat) :
    (nbnsQueryBytes tid).length = 50 ∧
    List.drop 12 (nbnsQueryBytes tid) =
      ([0x20, 0x43, 0x4b] ++ List.replicate 30 0x41 ++ [0]) ++
      [0x00, 0x21, 0x00, 0x01] := by
  constructor
  · simp [nbnsQueryBytes, headerBytes, be16, nbnsQuestion]
  · rw [nbnsQueryBytes,
      show (12 : Nat) = (headerBytes (DnsHeader.new_nbns tid)).length from
        (headerBytes_length _).symm,
      List.append_assoc, List.append_assoc, List.drop_left]
    decide

end Askhostname
